import Mathlib

/-!
Verification of the Coral Browser Agent request intake and sequencing layer.

This file is a shallow embedding, in Lean 4, of the Python sources
`src/main.py`, `src/utils/manual_input.py` and `src/utils/coral_tools.py`.
Pure computations (history ring, formatting, message validation, response
extraction) are translated as Lean functions; the cooperative producer and
consumer loops of `BrowserAgent.collect_inputs` / `BrowserAgent.process_inputs`
are translated both as a sequential draining function (`process_all`) and as a
small-step transition relation (`Step`) on the whole system state, so that
the ordering and single-in-flight invariants can be stated over every
reachable interleaving of the two tasks.
-/

namespace BrowserAgent

/-- A history entry, modelling the `(input_query, output)` tuples that
`BrowserAgent.process_inputs` appends to `self.history`. -/
structure HistoryEntry where
  request_text : String
  response_text : String
deriving DecidableEq, Repr

/-- A queued request, modelling the `(input_query, thread_id, sender_id)`
triples put on `input_queue` by `BrowserAgent.collect_inputs`; manual-mode
requests carry `none` in both correlation fields. -/
structure Request where
  text : String
  thread_id : Option String
  sender_id : Option String
deriving DecidableEq, Repr

/-- Python truthiness of an optional string value: `None` and the empty
string are falsy, every other string is truthy. -/
def otruthy : Option String → Bool
  | none => false
  | some s => s ≠ ""

/-- Append to a `collections.deque` created with the given `maxlen`
(`self.history = deque(maxlen=history_maxlen)` in `BrowserAgent.__init__`):
at capacity the oldest (leftmost) element is evicted; with `maxlen = 0`
the deque stays empty. -/
def dequeAppend (maxlen : Nat) (d : List HistoryEntry) (x : HistoryEntry) :
    List HistoryEntry :=
  if maxlen = 0 then []
  else if maxlen ≤ d.length then d.tail ++ [x]
  else d ++ [x]

/-- The history ring obtained by appending the given entries, in order, to an
initially empty deque of capacity `maxlen`. -/
def ring_of (maxlen : Nat) (entries : List HistoryEntry) : List HistoryEntry :=
  entries.foldl (dequeAppend maxlen) []

/-- One line of `BrowserAgent._format_history`:
the f-string `"{i}. User: {user_input}\n   Assistant: {assistant_output}"`. -/
def entry_line (i : Nat) (e : HistoryEntry) : String :=
  toString i ++ ". User: " ++ e.request_text ++ "\n   Assistant: " ++ e.response_text

/-- The list built by the loop `for i, (u, a) in enumerate(self.history, 1)`
in `BrowserAgent._format_history`, with the enumeration starting at `i`. -/
def format_lines_from (i : Nat) : List HistoryEntry → List String
  | [] => []
  | e :: t => entry_line i e :: format_lines_from (i + 1) t

/-- Python's `"\n".join(lines)`. -/
def join_nl : List String → String
  | [] => ""
  | [a] => a
  | a :: b :: t => a ++ "\n" ++ join_nl (b :: t)

/-- `BrowserAgent._format_history`: the empty history formats as the literal
string `"None"`; otherwise the entries are numbered from 1, oldest first,
and joined with newlines. -/
def format_history (h : List HistoryEntry) : String :=
  if h = [] then "None" else join_nl (format_lines_from 1 h)

/- Helper lemmas about the history ring. -/

theorem dequeAppend_length_le (maxlen : Nat) (d : List HistoryEntry)
    (x : HistoryEntry) (hd : d.length ≤ maxlen) :
    (dequeAppend maxlen d x).length ≤ maxlen := by
  unfold dequeAppend
  split
  · simp
  · split
    · rename_i h0 hfull
      have hne : d ≠ [] := by
        intro h
        subst h
        simp at hfull
        omega
      simp [List.length_tail]
      omega
    · rename_i h0 hfree
      simp
      omega

theorem foldl_dequeAppend_eq_drop (maxlen : Nat) (l r : List HistoryEntry)
    (hr : r.length ≤ maxlen) :
    List.foldl (dequeAppend maxlen) r l
      = (r ++ l).drop (r.length + l.length - maxlen) := by
  induction l generalizing r with
  | nil =>
      simp
      have : r.length - maxlen = 0 := by omega
      simp [this]
  | cons x t ih =>
      have hstep : (dequeAppend maxlen r x).length ≤ maxlen :=
        dequeAppend_length_le maxlen r x hr
      have ihx := ih (dequeAppend maxlen r x) hstep
      rw [List.foldl_cons, ihx]
      by_cases h0 : maxlen = 0
      · subst h0
        have h1 : dequeAppend 0 r x = [] := by simp [dequeAppend]
        rw [h1]
        simp
      · by_cases hfull : maxlen ≤ r.length
        · have hrlen : r.length = maxlen := by omega
          have h1 : dequeAppend maxlen r x = r.tail ++ [x] := by
            simp [dequeAppend, h0, hfull]
          rw [h1]
          obtain ⟨hd, tl, rfl⟩ : ∃ hd tl, r = hd :: tl := by
            cases r with
            | nil => simp at hrlen; omega
            | cons a b => exact ⟨a, b, rfl⟩
          simp at hrlen ⊢
          have harith : tl.length + 1 + (t.length + 1) - maxlen
              = (tl.length + 1 + t.length - maxlen) + 1 := by omega
          rw [harith]
          rw [List.drop_succ_cons]
        · have h1 : dequeAppend maxlen r x = r ++ [x] := by
            simp [dequeAppend, h0, hfull]
          rw [h1]
          simp
          congr 1
          omega

theorem ring_of_length_le (maxlen : Nat) (l : List HistoryEntry) :
    (ring_of maxlen l).length ≤ maxlen := by
  unfold ring_of
  rw [foldl_dequeAppend_eq_drop maxlen l [] (by simp)]
  simp
  omega

theorem ring_of_overflow (maxlen : Nat) (e : HistoryEntry)
    (es : List HistoryEntry) (hlen : es.length = maxlen) :
    ring_of maxlen (e :: es) = es := by
  unfold ring_of
  rw [foldl_dequeAppend_eq_drop maxlen (e :: es) [] (by simp)]
  simp [hlen]

theorem format_lines_from_getElem? (h : List HistoryEntry) (j i : Nat) :
    (format_lines_from j h)[i]? = (h[i]?).map (fun en => entry_line (j + i) en) := by
  induction h generalizing j i with
  | nil => simp [format_lines_from]
  | cons e t ih =>
      cases i with
      | zero => simp [format_lines_from]
      | succ k =>
          simp [format_lines_from, ih t.length]
          rw [ih (j + 1) k]
          have : j + 1 + k = j + (k + 1) := by omega
          rw [this]

theorem join_nl_cons (a : String) (l : List String) :
    ∃ s, join_nl (a :: l) = a ++ s := by
  cases l with
  | nil => exact ⟨"", by simp [join_nl]⟩
  | cons b t => exact ⟨"\n" ++ join_nl (b :: t), by simp [join_nl, String.append_assoc]⟩

theorem entry_line_length_ge (i : Nat) (e : HistoryEntry) :
    4 < (entry_line i e).length := by
  unfold entry_line
  rw [String.length_append, String.length_append, String.length_append,
    String.length_append]
  have h1 : String.length ". User: " = 8 := rfl
  have h2 : String.length "\n   Assistant: " = 15 := rfl
  omega

/-- The module-level constant `MANUAL_INPUT = False` in `src/main.py`; the
functions below take the mode as a parameter so that both input modes are
covered, and this constant records the value hard-coded in the repository. -/
def MANUAL_INPUT : Bool := false

/-- Result of the Reasoning Engine Gateway call `agent.ainvoke(...)` in
`BrowserAgent.process_inputs`: either a raised exception with its message
`str(e)`, or a returned response dictionary, modelled as an association
list of string keys and values. -/
def GatewayResult : Type := Except String (List (String × String))

/-- The response text computed by `BrowserAgent.process_inputs` from the
gateway outcome: `response.get("output", "No response generated")` on
success, and `f"Error: {str(e)}"` when the call raised. -/
def responseOutput : GatewayResult → String
  | Except.error e => "Error: " ++ e
  | Except.ok response =>
      match response.lookup "output" with
      | some v => v
      | none => "No response generated"

/-- The events the two loops can emit, used as the observable trace of the
system: gateway call start and return, the `print("Bot:", output)` response
print, the manual-mode busy print, a `send_message` call to the hub, the
consumer's caught-exception error log, and its `asyncio.sleep(0.5)` retry
delay. -/
inductive Event where
  | gwStart (query : String)
  | gwEnd (query : String)
  | printBot (output : String)
  | busyPrint
  | hubSend (threadId : String) (content : String) (mentions : List (Option String))
  | errorLog
  | sleepRetry
deriving DecidableEq, Repr

/-- The guard `if not MANUAL_INPUT and thread_id and sender_id` deciding
whether `BrowserAgent.process_inputs` dispatches the response to the hub. -/
def needsDispatch (manual : Bool) (req : Request) : Bool :=
  !manual && otruthy req.thread_id && otruthy req.sender_id

/-- The dispatch tail of one consumer iteration: when the guard holds,
either the `process_and_respond` hub send succeeds, or it raises and the
outer `except` block of `process_inputs` logs the error and sleeps before
the loop resumes (`dispatchOk = false` models that raised exception). -/
def dispatch_events (manual : Bool) (req : Request) (output : String)
    (dispatchOk : Bool) : List Event :=
  if needsDispatch manual req then
    if dispatchOk then
      [Event.hubSend (req.thread_id.getD "") output [some (req.sender_id.getD "")]]
    else
      [Event.errorLog, Event.sleepRetry]
  else []

/-- The events of one consumer iteration after the gateway call returns:
`print("Bot:", output)` followed by the dispatch tail. -/
def finish_events (manual : Bool) (req : Request) (gw : GatewayResult)
    (dispatchOk : Bool) : List Event :=
  Event.printBot (responseOutput gw) ::
    dispatch_events manual req (responseOutput gw) dispatchOk

/-- One queue item together with the environment's behaviour while it is
processed: the gateway outcome for it and whether the hub dispatch,
if attempted, succeeds. -/
structure QItem where
  req : Request
  gw : GatewayResult
  dispatchOk : Bool

/-- Result of draining queue items through the consumer loop. -/
structure RunOut where
  history : List HistoryEntry
  events : List Event
  completed : List (Request × String)

/-- One full iteration of the consumer loop `BrowserAgent.process_inputs`
on a dequeued item: set busy, format history, call the gateway, print the
output, append the history entry, dispatch, clear busy. -/
def process_one (manual : Bool) (maxlen : Nat) (hist : List HistoryEntry)
    (it : QItem) : List HistoryEntry × List Event :=
  (dequeAppend maxlen hist ⟨it.req.text, responseOutput it.gw⟩,
   Event.gwStart it.req.text :: Event.gwEnd it.req.text ::
     finish_events manual it.req it.gw it.dispatchOk)

/-- The consumer loop `BrowserAgent.process_inputs` draining a queue of
items one at a time, in FIFO order. -/
def process_all (manual : Bool) (maxlen : Nat) (hist : List HistoryEntry) :
    List QItem → RunOut
  | [] => ⟨hist, [], []⟩
  | it :: rest =>
      let r := process_one manual maxlen hist it
      let out := process_all manual maxlen r.1 rest
      ⟨out.history, r.2 ++ out.events,
        (it.req, responseOutput it.gw) :: out.completed⟩

/-- Count of gateway-call starts in a trace. -/
def countGwStart (t : List Event) : Nat :=
  t.countP fun e => match e with | Event.gwStart _ => true | _ => false

/-- Count of gateway-call returns in a trace. -/
def countGwEnd (t : List Event) : Nat :=
  t.countP fun e => match e with | Event.gwEnd _ => true | _ => false

/-- The sequence of response texts printed by `print("Bot:", output)`,
in trace order. -/
def printedOutputs (t : List Event) : List String :=
  t.filterMap fun e => match e with | Event.printBot s => some s | _ => none

/- Helper lemmas about the sequential consumer loop. -/

theorem process_all_completed (manual : Bool) (maxlen : Nat)
    (hist : List HistoryEntry) (items : List QItem) :
    (process_all manual maxlen hist items).completed
      = items.map fun it => (it.req, responseOutput it.gw) := by
  induction items generalizing hist with
  | nil => simp [process_all]
  | cons it rest ih => simp [process_all, ih]

theorem process_all_cons (manual : Bool) (maxlen : Nat)
    (hist : List HistoryEntry) (it : QItem) (rest : List QItem) :
    process_all manual maxlen hist (it :: rest)
      = ⟨(process_all manual maxlen
            (dequeAppend maxlen hist ⟨it.req.text, responseOutput it.gw⟩) rest).history,
         (Event.gwStart it.req.text :: Event.gwEnd it.req.text ::
            finish_events manual it.req it.gw it.dispatchOk)
           ++ (process_all manual maxlen
                 (dequeAppend maxlen hist ⟨it.req.text, responseOutput it.gw⟩) rest).events,
         (it.req, responseOutput it.gw) ::
           (process_all manual maxlen
              (dequeAppend maxlen hist ⟨it.req.text, responseOutput it.gw⟩) rest).completed⟩ :=
  rfl

theorem finish_events_no_gw (manual : Bool) (req : Request)
    (gw : GatewayResult) (ok : Bool) :
    countGwStart (finish_events manual req gw ok) = 0
    ∧ countGwEnd (finish_events manual req gw ok) = 0 := by
  rcases h1 : needsDispatch manual req with _ | _ <;>
    rcases h2 : ok with _ | _ <;>
      simp [finish_events, dispatch_events, countGwStart, countGwEnd, h1,
        List.countP_cons]

theorem process_all_gwStart (manual : Bool) (maxlen : Nat)
    (hist : List HistoryEntry) (items : List QItem) :
    countGwStart (process_all manual maxlen hist items).events = items.length := by
  induction items generalizing hist with
  | nil => simp [process_all, countGwStart]
  | cons it rest ih =>
      have hf := (finish_events_no_gw manual it.req it.gw it.dispatchOk).1
      have ih2 := ih (dequeAppend maxlen hist ⟨it.req.text, responseOutput it.gw⟩)
      rw [process_all_cons]
      unfold countGwStart at hf ih2 ⊢
      simp only [List.countP_append, List.countP_cons]
      simp
      omega

theorem process_all_errorLog (manual : Bool) (maxlen : Nat)
    (hist : List HistoryEntry) (items : List QItem) :
    (process_all manual maxlen hist items).events.count Event.errorLog
      = items.countP fun it => needsDispatch manual it.req && !it.dispatchOk := by
  induction items generalizing hist with
  | nil => simp [process_all]
  | cons it rest ih =>
      rw [process_all_cons]
      simp only [finish_events, List.count_append, List.count_cons,
        List.countP_cons]
      rw [ih]
      unfold dispatch_events
      rcases hnd : needsDispatch manual it.req with _ | _ <;>
        rcases hok : it.dispatchOk with _ | _ <;>
          simp [List.count_cons] <;> omega

theorem process_all_sleepRetry (manual : Bool) (maxlen : Nat)
    (hist : List HistoryEntry) (items : List QItem) :
    (process_all manual maxlen hist items).events.count Event.sleepRetry
      = items.countP fun it => needsDispatch manual it.req && !it.dispatchOk := by
  induction items generalizing hist with
  | nil => simp [process_all]
  | cons it rest ih =>
      rw [process_all_cons]
      simp only [finish_events, List.count_append, List.count_cons,
        List.countP_cons]
      rw [ih]
      unfold dispatch_events
      rcases hnd : needsDispatch manual it.req with _ | _ <;>
        rcases hok : it.dispatchOk with _ | _ <;>
          simp [List.count_cons] <;> omega

theorem dequeAppend_getLast (maxlen : Nat) (d : List HistoryEntry)
    (x : HistoryEntry) (h : maxlen ≠ 0) :
    (dequeAppend maxlen d x).getLast? = some x := by
  unfold dequeAppend
  rw [if_neg h]
  split <;> simp

/-- Python `str.strip()`: remove leading and trailing whitespace
characters (computed on the character list so that it evaluates by
kernel reduction). -/
def pystrip (s : String) : String :=
  ⟨((s.data.dropWhile Char.isWhitespace).reverse.dropWhile
      Char.isWhitespace).reverse⟩

/-- Python `str.lower()` on the character list. -/
def pylower (s : String) : String :=
  ⟨s.data.map Char.toLower⟩

/-- The function `get_user_input` of `src/utils/manual_input.py`: strip the
raw line; empty input yields `(None, False)`, a case-insensitive exact match
on `"exit"` yields `(None, True)`, anything else yields the stripped text
with no exit request. -/
def get_user_input (raw : String) : Option String × Bool :=
  let input_query := pystrip raw
  if input_query = "" then (none, false)
  else if pylower input_query = "exit" then (none, true)
  else (some input_query, false)

/-- One parsed remote message, as produced by `parse_mentions_response`
(its fields may be absent, modelled with `Option`). -/
structure Mention where
  threadId : Option String
  senderId : Option String
  content : Option String
deriving DecidableEq, Repr

/-- One call of the hub's `send_message` tool: the payload
`{"threadId": ..., "content": ..., "mentions": [...]}`.  The mentions list
holds optional strings because the malformed-message error reply in
`wait_for_mentions` reuses `sender_id` even when it is `None`. -/
structure HubSend where
  threadId : String
  content : String
  mentions : List (Option String)
deriving DecidableEq, Repr

/-- The text of the busy notice in `BrowserAgent.collect_inputs`. -/
def busy_text : String := "Agent is processing previous request and is busy"

/-- The message-validation core of `wait_for_mentions` in
`src/utils/coral_tools.py`, starting from the parsed message list: an empty
list or a first message without a truthy `threadId` is dropped silently;
a first message with a `threadId` but a missing `senderId` or `content`
triggers one `send_message` error reply and is dropped; otherwise the
`(thread_id, sender_id, content)` triple is returned.  The returned pair is
(hub sends performed, returned triple or `None`). -/
def wait_for_mentions (msgs : List Mention) :
    List HubSend × Option (String × String × String) :=
  match msgs with
  | [] => ([], none)
  | m :: _ =>
      if otruthy m.threadId = false then ([], none)
      else
        if otruthy m.senderId && otruthy m.content then
          ([], some (m.threadId.getD "", m.senderId.getD "", m.content.getD ""))
        else
          ([⟨m.threadId.getD "", "Error: Missing message fields", [m.senderId]⟩],
           none)

/-- One iteration of the manual branch of `BrowserAgent.collect_inputs`:
the returned pair is (events emitted, request enqueued if any).  Exit and
empty input enqueue nothing; otherwise a busy notice is printed first when
`is_busy` is set, and the request is enqueued with no correlation. -/
def collect_manual (busy : Bool) (raw : String) : List Event × Option Request :=
  match get_user_input raw with
  | (none, _) => ([], none)
  | (some q, _) =>
      ((if busy then [Event.busyPrint] else []), some ⟨q, none, none⟩)

/-- One iteration of the remote branch of `BrowserAgent.collect_inputs`,
composed with `wait_for_mentions` on the parsed messages: a dropped or
malformed message enqueues nothing; a valid triple first gets a busy reply
sent to the hub when `is_busy` is set, and is then enqueued with its
correlation.  `noticeOk` is whether that busy-reply `process_and_respond`
call succeeds: when it raises, the `except` block of `collect_inputs`
catches the exception before `input_queue.put` runs, logs it, prints a
local error notice, sleeps 0.5s, and the loop retries — so the request is
dropped and nothing is enqueued. -/
def collect_remote (busy : Bool) (noticeOk : Bool) (msgs : List Mention) :
    List Event × Option Request :=
  match wait_for_mentions msgs with
  | (sends, none) =>
      (sends.map fun s => Event.hubSend s.threadId s.content s.mentions, none)
  | (sends, some (tid, sid, q)) =>
      if q = "" then
        (sends.map fun s => Event.hubSend s.threadId s.content s.mentions, none)
      else
        if busy then
          if noticeOk then
            ((sends.map fun s => Event.hubSend s.threadId s.content s.mentions)
               ++ [Event.hubSend tid busy_text [some sid]],
             some ⟨q, some tid, some sid⟩)
          else
            ((sends.map fun s => Event.hubSend s.threadId s.content s.mentions)
               ++ [Event.errorLog, Event.sleepRetry],
             none)
        else
          (sends.map fun s => Event.hubSend s.threadId s.content s.mentions,
           some ⟨q, some tid, some sid⟩)

/-- The whole-system state while `collect_inputs` and `process_inputs` run
concurrently under `asyncio.gather`: the FIFO `input_queue` contents, the
history deque, the `is_busy` flag, the item the consumer is currently
awaiting the gateway on (if any), the event trace so far, and two ghost
observation lists: every request ever enqueued, and every completed
request with its response text, both in order. -/
structure SysState where
  queue : List Request
  history : List HistoryEntry
  is_busy : Bool
  inflight : Option Request
  trace : List Event
  enqueued : List Request
  completed : List (Request × String)

/-- The initial state: `input_queue = asyncio.Queue()` empty,
`self.is_busy = False`, empty history deque, nothing in flight. -/
def init : SysState :=
  ⟨[], [], false, none, [], [], []⟩

/-- Apply one producer iteration's outcome to the system state: emit its
events and enqueue its request, if any. -/
def apply_collect (s : SysState) (out : List Event × Option Request) : SysState :=
  { s with
    trace := s.trace ++ out.1,
    queue := s.queue ++ out.2.toList,
    enqueued := s.enqueued ++ out.2.toList }

/-- The cooperative small-step semantics of the two tasks of
`BrowserAgent.run`.  A producer step is one full iteration of
`collect_inputs` (its reads of `is_busy` and its enqueue have no suspension
point between them).  The consumer loop of `process_inputs` is split at its
only mid-item suspension of interest, the gateway call: `consBegin` pops
the head of the queue, sets `is_busy`, formats the history and issues the
gateway call; `consEnd` resumes when the call returns, prints and records
the response, dispatches it, and clears `is_busy`.  Because the code has a
single consumer task, a new item can only be begun when no call is in
flight. -/
inductive Step (manual : Bool) (maxlen : Nat) : SysState → SysState → Prop
  | prodManual (s : SysState) (raw : String) (hm : manual = true) :
      Step manual maxlen s (apply_collect s (collect_manual s.is_busy raw))
  | prodRemote (s : SysState) (noticeOk : Bool) (msgs : List Mention)
      (hm : manual = false) :
      Step manual maxlen s
        (apply_collect s (collect_remote s.is_busy noticeOk msgs))
  | consBegin (s : SysState) (r : Request) (rest : List Request)
      (hidle : s.inflight = none) (hq : s.queue = r :: rest) :
      Step manual maxlen s
        { s with
          queue := rest,
          inflight := some r,
          is_busy := true,
          trace := s.trace ++ [Event.gwStart r.text] }
  | consEnd (s : SysState) (r : Request) (gw : GatewayResult) (dispatchOk : Bool)
      (hfly : s.inflight = some r) :
      Step manual maxlen s
        { s with
          inflight := none,
          is_busy := false,
          history := dequeAppend maxlen s.history ⟨r.text, responseOutput gw⟩,
          trace := s.trace ++ Event.gwEnd r.text ::
            finish_events manual r gw dispatchOk,
          completed := s.completed ++ [(r, responseOutput gw)] }

/-- Reachability of a system state from the initial state. -/
def Reaches (manual : Bool) (maxlen : Nat) (s : SysState) : Prop :=
  Relation.ReflTransGen (Step manual maxlen) init s

/-- The invariant tying the ghost observations to the live state: the
completed requests, then the in-flight request, then the queued requests
are exactly the enqueued requests in order; `is_busy` mirrors the in-flight
marker; the trace holds one unmatched gateway start exactly when a call is
in flight; and the printed responses are the completed outputs in order. -/
def Inv (s : SysState) : Prop :=
  s.completed.map Prod.fst ++ s.inflight.toList ++ s.queue = s.enqueued
  ∧ s.is_busy = s.inflight.isSome
  ∧ countGwStart s.trace
      = countGwEnd s.trace + (if s.inflight.isSome then 1 else 0)
  ∧ printedOutputs s.trace = s.completed.map Prod.snd

/-- Events a producer iteration can emit (busy prints, hub sends, and the
caught-exception log and retry delay of its `except` block); none of them
is a gateway event or a response print. -/
def producerEvent : Event → Bool
  | Event.busyPrint => true
  | Event.hubSend _ _ _ => true
  | Event.errorLog => true
  | Event.sleepRetry => true
  | _ => false

theorem producer_events_neutral (evs : List Event)
    (h : ∀ e ∈ evs, producerEvent e = true) :
    countGwStart evs = 0 ∧ countGwEnd evs = 0 ∧ printedOutputs evs = [] := by
  induction evs with
  | nil => simp [countGwStart, countGwEnd, printedOutputs]
  | cons e t ih =>
      have he := h e (by simp)
      have ht := ih fun x hx => h x (by simp [hx])
      cases e <;> simp [producerEvent] at he <;>
        simp [countGwStart, countGwEnd, printedOutputs, List.countP_cons] at ht ⊢ <;>
          exact ht

theorem collect_manual_producer (busy : Bool) (raw : String) :
    ∀ e ∈ (collect_manual busy raw).1, producerEvent e = true := by
  unfold collect_manual
  split
  · simp
  · split <;> simp [producerEvent]

theorem hubSend_maps_producer (sends : List HubSend) :
    ∀ e ∈ sends.map fun s => Event.hubSend s.threadId s.content s.mentions,
      producerEvent e = true := by
  intro e he
  simp at he
  obtain ⟨s, _, rfl⟩ := he
  rfl

theorem collect_remote_producer (busy noticeOk : Bool) (msgs : List Mention) :
    ∀ e ∈ (collect_remote busy noticeOk msgs).1, producerEvent e = true := by
  unfold collect_remote
  split
  · exact hubSend_maps_producer _
  · split
    · exact hubSend_maps_producer _
    · split
      · split
        · intro e he
          rcases List.mem_append.mp he with h | h
          · exact hubSend_maps_producer _ e h
          · simp at h
            subst h
            rfl
        · intro e he
          rcases List.mem_append.mp he with h | h
          · exact hubSend_maps_producer _ e h
          · simp at h
            rcases h with rfl | rfl <;> rfl
      · exact hubSend_maps_producer _

theorem countGwStart_append (a b : List Event) :
    countGwStart (a ++ b) = countGwStart a + countGwStart b := by
  simp [countGwStart, List.countP_append]

theorem countGwEnd_append (a b : List Event) :
    countGwEnd (a ++ b) = countGwEnd a + countGwEnd b := by
  simp [countGwEnd, List.countP_append]

theorem printedOutputs_append (a b : List Event) :
    printedOutputs (a ++ b) = printedOutputs a ++ printedOutputs b := by
  simp [printedOutputs, List.filterMap_append]

theorem printedOutputs_dispatch (manual : Bool) (req : Request)
    (output : String) (ok : Bool) :
    printedOutputs (dispatch_events manual req output ok) = [] := by
  rcases h1 : needsDispatch manual req with _ | _ <;>
    rcases h2 : ok with _ | _ <;>
      simp [dispatch_events, printedOutputs, h1]

theorem printedOutputs_finish (manual : Bool) (req : Request)
    (gw : GatewayResult) (ok : Bool) :
    printedOutputs (finish_events manual req gw ok) = [responseOutput gw] := by
  have h := printedOutputs_dispatch manual req (responseOutput gw) ok
  simp [finish_events, printedOutputs] at h ⊢
  exact h

theorem Inv_init : Inv init := by
  refine ⟨rfl, rfl, rfl, rfl⟩

theorem Inv_step (manual : Bool) (maxlen : Nat) (s s' : SysState)
    (hs : Inv s) (st : Step manual maxlen s s') : Inv s' := by
  obtain ⟨h1, h2, h3, h4⟩ := hs
  cases st with
  | prodManual raw hm =>
      obtain ⟨hcs, hce, hpr⟩ :=
        producer_events_neutral _ (collect_manual_producer s.is_busy raw)
      refine ⟨?_, h2, ?_, ?_⟩
      · simp only [apply_collect]
        rw [← h1]
        simp [List.append_assoc]
      · simp only [apply_collect]
        rw [countGwStart_append, countGwEnd_append, hcs, hce]
        omega
      · simp only [apply_collect]
        rw [printedOutputs_append, hpr]
        simp [h4]
  | prodRemote noticeOk msgs hm =>
      obtain ⟨hcs, hce, hpr⟩ :=
        producer_events_neutral _
          (collect_remote_producer s.is_busy noticeOk msgs)
      refine ⟨?_, h2, ?_, ?_⟩
      · simp only [apply_collect]
        rw [← h1]
        simp [List.append_assoc]
      · simp only [apply_collect]
        rw [countGwStart_append, countGwEnd_append, hcs, hce]
        omega
      · simp only [apply_collect]
        rw [printedOutputs_append, hpr]
        simp [h4]
  | consBegin r rest hidle hq =>
      rw [hidle] at h1 h3
      rw [hq] at h1
      simp at h1 h3
      refine ⟨?_, rfl, ?_, ?_⟩
      · simpa using h1
      · rw [countGwStart_append, countGwEnd_append]
        have hone : countGwStart [Event.gwStart r.text] = 1 := rfl
        have hzero : countGwEnd [Event.gwStart r.text] = 0 := rfl
        rw [hone, hzero]
        simp
        omega
      · rw [printedOutputs_append]
        have : printedOutputs [Event.gwStart r.text] = [] := rfl
        rw [this]
        simpa using h4
  | consEnd r gw dispatchOk hfly =>
      rw [hfly] at h1 h3
      simp at h1 h3
      refine ⟨?_, rfl, ?_, ?_⟩
      · simpa using h1
      · have hf := finish_events_no_gw manual r gw dispatchOk
        have e1 : countGwStart (Event.gwEnd r.text ::
            finish_events manual r gw dispatchOk)
              = countGwStart (finish_events manual r gw dispatchOk) := by
          simp [countGwStart, List.countP_cons]
        have e2 : countGwEnd (Event.gwEnd r.text ::
            finish_events manual r gw dispatchOk)
              = countGwEnd (finish_events manual r gw dispatchOk) + 1 := by
          simp [countGwEnd, List.countP_cons]
        rw [countGwStart_append, countGwEnd_append, e1, e2, hf.1, hf.2]
        simp
        omega
      · rw [printedOutputs_append]
        have e3 : printedOutputs (Event.gwEnd r.text ::
            finish_events manual r gw dispatchOk)
              = [responseOutput gw] := by
          have := printedOutputs_finish manual r gw dispatchOk
          simp [printedOutputs] at this ⊢
          exact this
        rw [e3, h4]
        simp

theorem Inv_reaches (manual : Bool) (maxlen : Nat) (s : SysState)
    (h : Reaches manual maxlen s) : Inv s := by
  induction h with
  | refl => exact Inv_init
  | tail hab hbc ih => exact Inv_step manual maxlen _ _ ih hbc

/-- The request enqueued in the three-step demonstration run. -/
def c1_req : Request := ⟨"hello", some "t1", some "alice"⟩

/-- The state of the demonstration run: one remote request received,
begun, and completed with response "done". -/
def c1_demo : SysState :=
  ⟨[], [⟨"hello", "done"⟩], false, none,
   [Event.gwStart "hello", Event.gwEnd "hello", Event.printBot "done",
    Event.hubSend "t1" "done" [some "alice"]],
   [c1_req], [(c1_req, "done")]⟩

/-- Intermediate state after the remote request is enqueued. -/
def c1_s1 : SysState := ⟨[c1_req], [], false, none, [], [c1_req], []⟩

/-- Intermediate state while the gateway call is in flight. -/
def c1_s2 : SysState :=
  ⟨[], [], true, some c1_req, [Event.gwStart "hello"], [c1_req], []⟩

theorem c1_step1 : Step false 5 init c1_s1 :=
  Step.prodRemote init true [⟨some "t1", some "alice", some "hello"⟩] rfl

theorem c1_step2 : Step false 5 c1_s1 c1_s2 :=
  Step.consBegin c1_s1 c1_req [] rfl rfl

theorem c1_step3 : Step false 5 c1_s2 c1_demo :=
  Step.consEnd c1_s2 c1_req (Except.ok [("output", "done")]) true rfl

theorem c1_demo_reach : Reaches false 5 c1_demo :=
  Relation.ReflTransGen.tail
    (Relation.ReflTransGen.tail (Relation.ReflTransGen.single c1_step1)
      c1_step2)
    c1_step3

/-- The environment variables read by `BrowserAgent._validate_env_vars` in
`src/main.py` and by `initialize_agent` in `src/utils/coral_tools.py`;
a `none` field is an unset variable, and an empty string is falsy too
(Python `not os.getenv(var)`). -/
structure Env where
  MODEL_NAME : Option String
  MODEL_PROVIDER : Option String
  MODEL_API_KEY : Option String
  CORAL_SSE_URL : Option String
  CORAL_AGENT_ID : Option String
deriving DecidableEq, Repr

/-- The `required_vars` list of `BrowserAgent._validate_env_vars`. -/
def required_vars : List String :=
  ["MODEL_NAME", "MODEL_PROVIDER", "MODEL_API_KEY"]

/-- `os.getenv` restricted to the variables the embedding tracks. -/
def getenv (env : Env) (name : String) : Option String :=
  if name = "MODEL_NAME" then env.MODEL_NAME
  else if name = "MODEL_PROVIDER" then env.MODEL_PROVIDER
  else if name = "MODEL_API_KEY" then env.MODEL_API_KEY
  else if name = "CORAL_SSE_URL" then env.CORAL_SSE_URL
  else if name = "CORAL_AGENT_ID" then env.CORAL_AGENT_ID
  else none

/-- `missing_vars = [var for var in required_vars if not os.getenv(var)]`
in `BrowserAgent._validate_env_vars`; a nonempty result raises
`SystemExit`. -/
def missing_vars (env : Env) : List String :=
  required_vars.filter fun v => !otruthy (getenv env v)

/-- The check `if not all([base_url, agent_id])` of `initialize_agent`
(negated): both `CORAL_SSE_URL` and `CORAL_AGENT_ID` are truthy. -/
def hub_env_ok (env : Env) : Bool :=
  otruthy env.CORAL_SSE_URL && otruthy env.CORAL_AGENT_ID

/-- Lifecycle events of a whole process run: fatal configuration aborts,
connection opens and closes, and the body phases of `BrowserAgent.run`.
`closeHub` is an event no code path of the repository emits: nothing ever
closes the hub client created by `initialize_agent`. -/
inductive RunEvent where
  | fatalConfigError
  | browserConnectError
  | openBrowserSession
  | openHub
  | runBody
  | tasksCancelled
  | sessionError
  | closeBrowserClient
  | closeBrowserSession
  | closeHub
deriving DecidableEq, Repr

/-- The events of the body of `BrowserAgent.run` inside the browser
session: `toolsOk` is whether `load_mcp_tools` and `create_agent` succeed
(`sessionError` when not); in remote mode `initialize_agent` then validates
the hub environment variables — raising before the hub is connected when
they are missing — and connects to the hub (`openHub`), all after the
browser session is already open; finally the two loops run under
`asyncio.gather` until cancellation (`cancelled`).  No branch emits
`closeHub`: the hub client is never closed. -/
def run_body_events (env : Env) (manual toolsOk cancelled : Bool) :
    List RunEvent :=
  if toolsOk = false then [RunEvent.sessionError]
  else if manual = false && !hub_env_ok env then [RunEvent.fatalConfigError]
  else
    (if manual = false then [RunEvent.openHub] else [])
      ++ [RunEvent.runBody]
      ++ (if cancelled then [RunEvent.tasksCancelled] else [])

/-- The full lifecycle trace of `BrowserAgent.run`: entering the browser
session (or failing to), the body events above, then — on every exit path
inside the session — the `finally` block's `self.client.close()` followed
by the context manager closing the session. -/
def run_trace (env : Env) (manual browserOk toolsOk cancelled : Bool) :
    List RunEvent :=
  if browserOk = false then [RunEvent.browserConnectError]
  else
    RunEvent.openBrowserSession ::
      (run_body_events env manual toolsOk cancelled
        ++ [RunEvent.closeBrowserClient, RunEvent.closeBrowserSession])

/-- The lifecycle trace of the whole process (`__main__` block of
`src/main.py`): `BrowserAgent()` is constructed first, and its
`_validate_env_vars` aborts with `SystemExit` before any connection is
attempted when a model variable is missing; otherwise `run()` executes with
the hard-coded `MANUAL_INPUT` mode. -/
def main_trace (env : Env) (browserOk toolsOk cancelled : Bool) :
    List RunEvent :=
  if (missing_vars env).isEmpty = false then [RunEvent.fatalConfigError]
  else run_trace env MANUAL_INPUT browserOk toolsOk cancelled

/-- An environment with every tracked variable set. -/
def full_env : Env :=
  ⟨some "gpt", some "openai", some "key", some "http://hub", some "agent1"⟩

/-- An environment with the model variables set but the hub base URL
unset. -/
def env_no_hub : Env :=
  ⟨some "gpt", some "openai", some "key", none, some "agent1"⟩

theorem run_body_events_no_close (env : Env) (manual toolsOk cancelled : Bool) :
    RunEvent.closeBrowserClient ∉ run_body_events env manual toolsOk cancelled
    ∧ RunEvent.closeBrowserSession ∉ run_body_events env manual toolsOk cancelled
    ∧ RunEvent.closeHub ∉ run_body_events env manual toolsOk cancelled := by
  rcases toolsOk with _ | _ <;> rcases manual with _ | _ <;>
    rcases hh : hub_env_ok env with _ | _ <;> rcases cancelled with _ | _ <;>
      simp [run_body_events, hh]

theorem run_trace_no_closeHub (env : Env)
    (manual browserOk toolsOk cancelled : Bool) :
    RunEvent.closeHub ∉ run_trace env manual browserOk toolsOk cancelled := by
  have hb := (run_body_events_no_close env manual toolsOk cancelled).2.2
  rcases browserOk with _ | _ <;> simp [run_trace]
  exact hb

theorem main_trace_no_closeHub (env : Env) (browserOk toolsOk cancelled : Bool) :
    RunEvent.closeHub ∉ main_trace env browserOk toolsOk cancelled := by
  unfold main_trace
  split
  · simp
  · exact run_trace_no_closeHub env MANUAL_INPUT browserOk toolsOk cancelled

/-!
The claims.
-/

/-- C1: for every sequence of requests enqueued on the input queue, in every
reachable interleaving of the producer and consumer tasks, the completed
requests form a prefix of the enqueued requests in order and their printed
responses appear in exactly that order (FIFO dispatch), and the trace never
holds more than one unmatched gateway-call start — at no reachable state is
more than one Reasoning Engine Gateway call in flight. -/
theorem c1_fifo_single_inflight (manual : Bool) (maxlen : Nat) (s : SysState)
    (h : Reaches manual maxlen s) :
    (∃ pending, s.enqueued = s.completed.map Prod.fst ++ pending)
    ∧ countGwStart s.trace ≤ countGwEnd s.trace + 1
    ∧ printedOutputs s.trace = s.completed.map Prod.snd := by
  obtain ⟨h1, h2, h3, h4⟩ := Inv_reaches manual maxlen s h
  refine ⟨⟨s.inflight.toList ++ s.queue, ?_⟩, ?_, h4⟩
  · rw [← h1]
    simp [List.append_assoc]
  · rw [h3]
    split <;> omega

/-- Witness for C1: the concrete three-step run (enqueue one remote
request, begin it, complete it) reaches `c1_demo`, where the conclusion
holds. -/
theorem c1_fifo_single_inflight_witness :
    Reaches false 5 c1_demo
    ∧ ((∃ pending, c1_demo.enqueued = c1_demo.completed.map Prod.fst ++ pending)
       ∧ countGwStart c1_demo.trace ≤ countGwEnd c1_demo.trace + 1
       ∧ printedOutputs c1_demo.trace = c1_demo.completed.map Prod.snd) :=
  ⟨c1_demo_reach, c1_fifo_single_inflight false 5 c1_demo c1_demo_reach⟩

/-- C2: the History Ring never exceeds its capacity `N` under any sequence
of appends; appending `N + 1` entries to an empty ring leaves exactly the
newest `N` entries in insertion order (so the oldest entry is absent
whenever it differs from all later ones); and formatting places the entry
stored at position `i` (oldest first) on line `i + 1`, numbered from 1. -/
theorem c2_history_ring (N : Nat) (l : List HistoryEntry) (e : HistoryEntry)
    (es : List HistoryEntry) (hlen : es.length = N) :
    (ring_of N l).length ≤ N
    ∧ ring_of N (e :: es) = es
    ∧ (e ∉ es → e ∉ ring_of N (e :: es))
    ∧ ∀ (h : List HistoryEntry) (i : Nat) (en : HistoryEntry),
        h[i]? = some en →
        (format_lines_from 1 h)[i]? = some (entry_line (i + 1) en) := by
  refine ⟨ring_of_length_le N l, ring_of_overflow N e es hlen, ?_, ?_⟩
  · intro hnotin
    rw [ring_of_overflow N e es hlen]
    exact hnotin
  · intro h i en hi
    rw [format_lines_from_getElem?, hi]
    simp [Nat.add_comm]

/-- Witness for C2 at capacity 2 with three concrete entries. -/
theorem c2_history_ring_witness :
    ([⟨"a", "ra"⟩, ⟨"b", "rb"⟩] : List HistoryEntry).length = 2
    ∧ ((ring_of 2 [⟨"x", "rx"⟩, ⟨"y", "ry"⟩, ⟨"z", "rz"⟩]).length ≤ 2
       ∧ ring_of 2 (⟨"e", "re"⟩ :: [⟨"a", "ra"⟩, ⟨"b", "rb"⟩])
           = [⟨"a", "ra"⟩, ⟨"b", "rb"⟩]
       ∧ ((⟨"e", "re"⟩ : HistoryEntry) ∉ ([⟨"a", "ra"⟩, ⟨"b", "rb"⟩] : List HistoryEntry) →
           (⟨"e", "re"⟩ : HistoryEntry) ∉ ring_of 2 (⟨"e", "re"⟩ :: [⟨"a", "ra"⟩, ⟨"b", "rb"⟩]))
       ∧ ∀ (h : List HistoryEntry) (i : Nat) (en : HistoryEntry),
           h[i]? = some en →
           (format_lines_from 1 h)[i]? = some (entry_line (i + 1) en)) :=
  ⟨by decide,
   c2_history_ring 2 [⟨"x", "rx"⟩, ⟨"y", "ry"⟩, ⟨"z", "rz"⟩] ⟨"e", "re"⟩
     [⟨"a", "ra"⟩, ⟨"b", "rb"⟩] (by decide)⟩

/-- C3: a gateway call that raises with message `msg` appends exactly one
history entry whose response text is `"Error: " ++ msg` (containing the
error detail), the whole consumer iteration is identical to one whose
gateway succeeded with that same output text — so the error text is printed
and dispatched exactly as a normal response — and the loop goes on to
process every subsequent queued item. -/
theorem c3_gateway_error (manual : Bool) (maxlen : Nat)
    (hist : List HistoryEntry) (req : Request) (msg : String) (ok : Bool)
    (rest : List QItem) (hm : maxlen ≠ 0) :
    (process_one manual maxlen hist ⟨req, Except.error msg, ok⟩).1
        = dequeAppend maxlen hist ⟨req.text, "Error: " ++ msg⟩
    ∧ (process_one manual maxlen hist ⟨req, Except.error msg, ok⟩).1.getLast?
        = some ⟨req.text, "Error: " ++ msg⟩
    ∧ process_one manual maxlen hist ⟨req, Except.error msg, ok⟩
        = process_one manual maxlen hist
            ⟨req, Except.ok [("output", "Error: " ++ msg)], ok⟩
    ∧ (process_all manual maxlen hist
          (⟨req, Except.error msg, ok⟩ :: rest)).completed
        = (req, "Error: " ++ msg)
            :: rest.map fun it => (it.req, responseOutput it.gw) := by
  refine ⟨rfl, ?_, rfl, ?_⟩
  · exact dequeAppend_getLast maxlen hist ⟨req.text, "Error: " ++ msg⟩ hm
  · rw [process_all_cons]
    simp [process_all_completed]
    rfl

/-- Witness for C3 with a concrete raised exception. -/
theorem c3_gateway_error_witness :
    (5 : Nat) ≠ 0
    ∧ ((process_one false 5 [] ⟨⟨"task", some "t", some "s"⟩, Except.error "boom", true⟩).1
          = dequeAppend 5 [] ⟨"task", "Error: " ++ "boom"⟩
       ∧ (process_one false 5 [] ⟨⟨"task", some "t", some "s"⟩, Except.error "boom", true⟩).1.getLast?
          = some ⟨"task", "Error: " ++ "boom"⟩
       ∧ process_one false 5 [] ⟨⟨"task", some "t", some "s"⟩, Except.error "boom", true⟩
          = process_one false 5 []
              ⟨⟨"task", some "t", some "s"⟩, Except.ok [("output", "Error: " ++ "boom")], true⟩
       ∧ (process_all false 5 []
            (⟨⟨"task", some "t", some "s"⟩, Except.error "boom", true⟩ :: [])).completed
          = (⟨"task", some "t", some "s"⟩, "Error: " ++ "boom")
              :: ([] : List QItem).map fun it => (it.req, responseOutput it.gw)) :=
  ⟨by decide,
   c3_gateway_error false 5 [] ⟨"task", some "t", some "s"⟩ "boom" true []
     (by decide)⟩

/-- C4 counterexample: a valid remote request submitted while the busy flag
is set, whose busy-reply hub send raises, is dropped by the producer's
`except` block before `input_queue.put` runs — zero requests are enqueued
(so the request is never processed) and no busy notice reaches the
requester, refuting the claim that every busy-time submission is still
enqueued and eventually processed normally in addition to its notice. -/
theorem c4_counterexample :
    (collect_remote true false [⟨some "t1", some "alice", some "hi"⟩]).2 = none
    ∧ (collect_remote true false [⟨some "t1", some "alice", some "hi"⟩]).1
        = [Event.errorLog, Event.sleepRetry] := by
  decide

/-- C4 (amended): a request submitted while the busy flag is set receives
exactly one busy notice in either input mode (one local print in manual
mode, one busy reply to the hub in remote mode) and is still enqueued with
its correlation, provided the busy-notice delivery succeeds — in manual
mode always, in remote mode when the hub send returns; the consumer loop
then processes every enqueued item normally, each completed item carrying
the response of its own gateway call, so the notice is in addition to, not
instead of, processing.  If the remote busy-reply send raises, however, the
producer's exception handler drops the request: nothing is enqueued and it
is never processed. -/
theorem c4_busy_notice (raw q : String) (msgs : List Mention)
    (tid sid qr : String)
    (h1 : get_user_input raw = (some q, false))
    (h2 : wait_for_mentions msgs = ([], some (tid, sid, qr)))
    (h3 : qr ≠ "") :
    collect_manual true raw = ([Event.busyPrint], some ⟨q, none, none⟩)
    ∧ collect_remote true true msgs
        = ([Event.hubSend tid busy_text [some sid]],
           some ⟨qr, some tid, some sid⟩)
    ∧ collect_remote true false msgs
        = ([Event.errorLog, Event.sleepRetry], none)
    ∧ ∀ (manual : Bool) (maxlen : Nat) (hist : List HistoryEntry)
        (items : List QItem),
        (process_all manual maxlen hist items).completed
          = items.map fun it => (it.req, responseOutput it.gw) := by
  refine ⟨?_, ?_, ?_, fun manual maxlen hist items =>
    process_all_completed manual maxlen hist items⟩
  · unfold collect_manual
    rw [h1]
    rfl
  · unfold collect_remote
    rw [h2]
    simp [h3]
  · unfold collect_remote
    rw [h2]
    simp [h3]

/-- Witness for C4 (amended) with a concrete manual line and a concrete
valid remote mention, both submitted while busy. -/
theorem c4_busy_notice_witness :
    get_user_input "book a flight" = (some "book a flight", false)
    ∧ wait_for_mentions [⟨some "t1", some "alice", some "hi"⟩]
        = ([], some ("t1", "alice", "hi"))
    ∧ "hi" ≠ ""
    ∧ (collect_manual true "book a flight"
        = ([Event.busyPrint], some ⟨"book a flight", none, none⟩)
       ∧ collect_remote true true [⟨some "t1", some "alice", some "hi"⟩]
          = ([Event.hubSend "t1" busy_text [some "alice"]],
             some ⟨"hi", some "t1", some "alice"⟩)
       ∧ collect_remote true false [⟨some "t1", some "alice", some "hi"⟩]
          = ([Event.errorLog, Event.sleepRetry], none)
       ∧ ∀ (manual : Bool) (maxlen : Nat) (hist : List HistoryEntry)
           (items : List QItem),
           (process_all manual maxlen hist items).completed
             = items.map fun it => (it.req, responseOutput it.gw)) :=
  ⟨by decide, by decide, by decide,
   c4_busy_notice "book a flight" "book a flight"
     [⟨some "t1", some "alice", some "hi"⟩] "t1" "alice" "hi"
     (by decide) (by decide) (by decide)⟩

/-- C5 counterexample: a remote message missing only its `threadId` (with
`senderId` and `content` both present) is dropped by `wait_for_mentions`
with zero hub sends — not the exactly-one error reply the claim requires
for a message missing any of `threadId`, `senderId` or `content`. -/
theorem c5_counterexample :
    ¬((wait_for_mentions [⟨none, some "alice", some "do the task"⟩]).1.length = 1)
    ∧ (wait_for_mentions [⟨none, some "alice", some "do the task"⟩]).1 = []
    ∧ (wait_for_mentions [⟨none, some "alice", some "do the task"⟩]).2 = none := by
  decide

/-- C5 (amended): a first remote message without a truthy `threadId` is
dropped silently — no error reply is sent and nothing is returned for
enqueueing; a first message with a truthy `threadId` but a missing
`senderId` or `content` triggers exactly one best-effort error reply to
the hub and is likewise dropped; in every dropped case the remote
collector enqueues zero requests and polling resumes. -/
theorem c5_malformed_mention (m : Mention) (rest : List Mention) :
    (otruthy m.threadId = false → wait_for_mentions (m :: rest) = ([], none))
    ∧ (∀ tid, m.threadId = some tid → tid ≠ "" →
        (otruthy m.senderId && otruthy m.content) = false →
        wait_for_mentions (m :: rest)
          = ([⟨tid, "Error: Missing message fields", [m.senderId]⟩], none))
    ∧ ∀ busy noticeOk, (wait_for_mentions (m :: rest)).2 = none →
        (collect_remote busy noticeOk (m :: rest)).2 = none := by
  refine ⟨?_, ?_, ?_⟩
  · intro h
    simp [wait_for_mentions, h]
  · intro tid htid hne hmc
    have ht : otruthy (some tid) = true := decide_eq_true hne
    simp [wait_for_mentions, htid, ht, hmc]
  · intro busy noticeOk h
    unfold collect_remote
    rcases hw : wait_for_mentions (m :: rest) with ⟨sends, res⟩
    rw [hw] at h
    simp at h
    subst h
    simp

/-- Witness for C5 (amended): a concrete mention with a thread id but no
sender triggers exactly the single error reply. -/
theorem c5_malformed_mention_witness :
    (Mention.mk (some "t1") none (some "c")).threadId = some "t1"
    ∧ "t1" ≠ ""
    ∧ (otruthy (Mention.mk (some "t1") none (some "c")).senderId
        && otruthy (Mention.mk (some "t1") none (some "c")).content) = false
    ∧ wait_for_mentions [⟨some "t1", none, some "c"⟩]
        = ([⟨"t1", "Error: Missing message fields", [none]⟩], none) :=
  ⟨by decide, by decide, by decide,
   (c5_malformed_mention ⟨some "t1", none, some "c"⟩ []).2.1 "t1"
     (by decide) (by decide) (by decide)⟩

/-- C6: over any finite sequence of queued items, every item reaches the
gateway exactly once no matter how many dispatch-path exceptions occur —
the consumer loop never exits — and each management-path exception is
caught, producing exactly one logged error event and one short retry delay
before the loop resumes with the next item. -/
theorem c6_consumer_loop_resilient (manual : Bool) (maxlen : Nat)
    (hist : List HistoryEntry) (items : List QItem) :
    countGwStart (process_all manual maxlen hist items).events = items.length
    ∧ (process_all manual maxlen hist items).events.count Event.errorLog
        = items.countP fun it => needsDispatch manual it.req && !it.dispatchOk
    ∧ (process_all manual maxlen hist items).events.count Event.sleepRetry
        = items.countP fun it => needsDispatch manual it.req && !it.dispatchOk :=
  ⟨process_all_gwStart manual maxlen hist items,
   process_all_errorLog manual maxlen hist items,
   process_all_sleepRetry manual maxlen hist items⟩

/-- C7 counterexample: in the repository's remote mode with a fully set
environment and a clean run, the hub connection is opened but no event in
the whole process trace closes it — `run` closes only the browser client
and session — so the claim that both connections are closed exactly once
on every exit path fails. -/
theorem c7_counterexample :
    RunEvent.openHub ∈ main_trace full_env true true false
    ∧ RunEvent.closeHub ∉ main_trace full_env true true false := by
  decide

/-- C7 (amended): on every exit path on which the browser session was
opened (normal completion, cancellation, tool failure, hub-configuration
failure), the browser tool client and then the browser session are closed,
exactly once each and as the final two events of the run; the remote hub
connection, however, is never closed on any path of the process. -/
theorem c7_connection_teardown (env : Env)
    (manual browserOk toolsOk cancelled : Bool) (hb : browserOk = true) :
    (run_trace env manual browserOk toolsOk cancelled).count
        RunEvent.closeBrowserClient = 1
    ∧ (run_trace env manual browserOk toolsOk cancelled).count
        RunEvent.closeBrowserSession = 1
    ∧ (∃ pre, run_trace env manual browserOk toolsOk cancelled
        = pre ++ [RunEvent.closeBrowserClient, RunEvent.closeBrowserSession])
    ∧ ∀ (bOk tOk c : Bool),
        RunEvent.closeHub ∉ main_trace env bOk tOk c := by
  subst hb
  obtain ⟨hc, hs, _⟩ := run_body_events_no_close env manual toolsOk cancelled
  refine ⟨?_, ?_, ?_, fun bOk tOk c => main_trace_no_closeHub env bOk tOk c⟩
  · simp [run_trace, List.count_append, List.count_cons,
      List.count_eq_zero_of_not_mem hc]
  · simp [run_trace, List.count_append, List.count_cons,
      List.count_eq_zero_of_not_mem hs]
  · exact ⟨RunEvent.openBrowserSession :: run_body_events env manual toolsOk cancelled,
      by simp [run_trace]⟩

/-- Witness for C7 (amended) at the fully set environment, remote mode,
clean run. -/
theorem c7_connection_teardown_witness :
    (true : Bool) = true
    ∧ ((run_trace full_env false true true false).count
          RunEvent.closeBrowserClient = 1
       ∧ (run_trace full_env false true true false).count
          RunEvent.closeBrowserSession = 1
       ∧ (∃ pre, run_trace full_env false true true false
          = pre ++ [RunEvent.closeBrowserClient, RunEvent.closeBrowserSession])
       ∧ ∀ (bOk tOk c : Bool),
          RunEvent.closeHub ∉ main_trace full_env bOk tOk c) :=
  ⟨rfl, c7_connection_teardown full_env false true true false rfl⟩

/-- C8 counterexample: with the model variables set but `CORAL_SSE_URL`
unset, the process does abort fatally, but only after the browser tool
server connection has been established: the trace opens the browser
session strictly before the fatal configuration error, contradicting the
claim that for every missing required variable the process aborts before
establishing any connection. -/
theorem c8_counterexample :
    main_trace env_no_hub true true false
      = [RunEvent.openBrowserSession, RunEvent.fatalConfigError,
         RunEvent.closeBrowserClient, RunEvent.closeBrowserSession]
    ∧ RunEvent.openBrowserSession ∈ main_trace env_no_hub true true false := by
  decide

/-- C8 (amended): a missing model variable (`MODEL_NAME`, `MODEL_PROVIDER`,
`MODEL_API_KEY`) aborts the process fatally before any connection event;
a missing hub variable (`CORAL_SSE_URL` or `CORAL_AGENT_ID`) also aborts
the process fatally and before the hub connection is opened, but only
after the browser tool server connection has been established. -/
theorem c8_env_validation (env : Env) (browserOk toolsOk cancelled : Bool)
    (h1 : (missing_vars env).isEmpty = false) :
    main_trace env browserOk toolsOk cancelled = [RunEvent.fatalConfigError]
    ∧ ∀ env2 : Env, (missing_vars env2).isEmpty = true →
        hub_env_ok env2 = false →
        RunEvent.fatalConfigError ∈ main_trace env2 true true cancelled
        ∧ RunEvent.openHub ∉ main_trace env2 true true cancelled
        ∧ RunEvent.openBrowserSession ∈ main_trace env2 true true cancelled := by
  constructor
  · simp [main_trace, h1]
  · intro env2 h2 h3
    simp [main_trace, h2, run_trace, run_body_events, MANUAL_INPUT, h3]

/-- Witness for C8 (amended) at a concrete environment missing
`MODEL_NAME`. -/
theorem c8_env_validation_witness :
    (missing_vars ⟨none, some "openai", some "key", some "u", some "a"⟩).isEmpty = false
    ∧ (main_trace ⟨none, some "openai", some "key", some "u", some "a"⟩ true true false
        = [RunEvent.fatalConfigError]
       ∧ ∀ env2 : Env, (missing_vars env2).isEmpty = true →
          hub_env_ok env2 = false →
          RunEvent.fatalConfigError ∈ main_trace env2 true true false
          ∧ RunEvent.openHub ∉ main_trace env2 true true false
          ∧ RunEvent.openBrowserSession ∈ main_trace env2 true true false) :=
  ⟨by decide,
   c8_env_validation ⟨none, some "openai", some "key", some "u", some "a"⟩
     true true false (by decide)⟩

/-- C9: formatting an empty History Ring yields the literal string "None"
(not the empty string), and formatting any non-empty ring yields the
newline-joined numbered entry list, which is never "None" nor empty. -/
theorem c9_format_history_none (h : List HistoryEntry) (hne : h ≠ []) :
    format_history [] = "None"
    ∧ format_history h = join_nl (format_lines_from 1 h)
    ∧ format_history h ≠ "None"
    ∧ format_history h ≠ "" := by
  have key : ∀ (e : HistoryEntry) (t : List HistoryEntry),
      4 < (format_history (e :: t)).length := by
    intro e t
    obtain ⟨s, hs⟩ := join_nl_cons (entry_line 1 e) (format_lines_from 2 t)
    have h2 : format_history (e :: t)
        = join_nl (entry_line 1 e :: format_lines_from 2 t) := by
      simp [format_history]
      rfl
    rw [h2, hs, String.length_append]
    have := entry_line_length_ge 1 e
    omega
  obtain ⟨e, t, rfl⟩ : ∃ e t, h = e :: t := by
    cases h with
    | nil => exact absurd rfl hne
    | cons a b => exact ⟨a, b, rfl⟩
  refine ⟨rfl, by simp [format_history], ?_, ?_⟩
  · intro hc
    have hl := key e t
    rw [hc] at hl
    exact absurd hl (by decide)
  · intro hc
    have hl := key e t
    rw [hc] at hl
    exact absurd hl (by decide)

/-- Witness for C9 with a concrete one-entry history. -/
theorem c9_format_history_none_witness :
    ([⟨"q", "a"⟩] : List HistoryEntry) ≠ []
    ∧ (format_history [] = "None"
       ∧ format_history [⟨"q", "a"⟩] = join_nl (format_lines_from 1 [⟨"q", "a"⟩])
       ∧ format_history [⟨"q", "a"⟩] ≠ "None"
       ∧ format_history [⟨"q", "a"⟩] ≠ "") :=
  ⟨by decide, c9_format_history_none [⟨"q", "a"⟩] (by decide)⟩

/-- C10: a gateway call that succeeds with a result lacking an "output" key
yields the fixed response text "No response generated", which is what is
recorded as the newest history entry and what is printed and dispatched to
the requester. -/
theorem c10_no_output_field (manual : Bool) (maxlen : Nat)
    (hist : List HistoryEntry) (req : Request) (d : List (String × String))
    (ok : Bool) (hd : d.lookup "output" = none) (hm : maxlen ≠ 0) :
    responseOutput (Except.ok d) = "No response generated"
    ∧ (process_one manual maxlen hist ⟨req, Except.ok d, ok⟩).1.getLast?
        = some ⟨req.text, "No response generated"⟩
    ∧ (process_one manual maxlen hist ⟨req, Except.ok d, ok⟩).2
        = Event.gwStart req.text :: Event.gwEnd req.text
            :: Event.printBot "No response generated"
            :: dispatch_events manual req "No response generated" ok := by
  have h1 : responseOutput (Except.ok d) = "No response generated" := by
    show (match d.lookup "output" with
          | some v => v
          | none => "No response generated") = "No response generated"
    rw [hd]
  refine ⟨h1, ?_, ?_⟩
  · show (dequeAppend maxlen hist ⟨req.text, responseOutput (Except.ok d)⟩).getLast? = _
    rw [h1]
    exact dequeAppend_getLast maxlen hist _ hm
  · show Event.gwStart req.text :: Event.gwEnd req.text
        :: finish_events manual req (Except.ok d) ok = _
    unfold finish_events
    rw [h1]

/-- Witness for C10 with a concrete result dictionary lacking the "output"
key. -/
theorem c10_no_output_field_witness :
    ([("result", "42")] : List (String × String)).lookup "output" = none
    ∧ (5 : Nat) ≠ 0
    ∧ (responseOutput (Except.ok [("result", "42")]) = "No response generated"
       ∧ (process_one true 5 [] ⟨⟨"ask", none, none⟩, Except.ok [("result", "42")], true⟩).1.getLast?
          = some ⟨"ask", "No response generated"⟩
       ∧ (process_one true 5 [] ⟨⟨"ask", none, none⟩, Except.ok [("result", "42")], true⟩).2
          = Event.gwStart "ask" :: Event.gwEnd "ask"
              :: Event.printBot "No response generated"
              :: dispatch_events true ⟨"ask", none, none⟩ "No response generated" true) :=
  ⟨by decide, by decide,
   c10_no_output_field true 5 [] ⟨"ask", none, none⟩ [("result", "42")] true
     (by decide) (by decide)⟩

end BrowserAgent
